import Mathlib

/-!
# Verification of the ScannerPlatform core

Shallow embedding of the pattern-detection, timeframe-aggregation and
data-retrieval core of the ScannerPlatform repository, together with proofs
of the specification claims about it.

Prices and percentages are modelled as rationals (`ℚ`); Python `float`
arithmetic on the small decimal inputs involved is exact for the operations
used here.  Dates are modelled as abstract ordinals (`ℤ`) carrying their
calendar attributes (ISO year / ISO week from `isocalendar()`, calendar
year / month) as explicit fields, since the code only ever consumes those
attributes of a date.
-/

namespace ScannerPlatform

/-! ## Candles and derived metrics (`src/scanner/pattern_detector.py`) -/

/-- One OHLC candle, mirroring `pattern_detector.Candle`. -/
structure Candle where
  date : ℤ
  «open» : ℚ
  high : ℚ
  low : ℚ
  close : ℚ
  volume : ℚ := 0
  deriving Repr, DecidableEq

/-- `Candle.body`: absolute body size `|close - open|`. -/
def Candle.body (c : Candle) : ℚ := |c.close - c.«open»|

/-- `Candle.range`: `high - low`. -/
def Candle.range (c : Candle) : ℚ := c.high - c.low

/-- `Candle.body_pct`: body as a percentage of range, `0` when the range is `0`. -/
def Candle.bodyPct (c : Candle) : ℚ :=
  if c.range = 0 then 0 else c.body / c.range * 100

/-- `Candle.is_bullish`: `close > open`. -/
def Candle.isBullish (c : Candle) : Bool := decide (c.close > c.«open»)

/-- `Candle.is_bearish`: `close < open`. -/
def Candle.isBearish (c : Candle) : Bool := decide (c.close < c.«open»)

/-- `Candle.body_move_pct`: body as a percentage of the open, `0` when open is `0`. -/
def Candle.bodyMovePct (c : Candle) : ℚ :=
  if c.«open» = 0 then 0 else c.body / c.«open» * 100

/-! ## Decimal rounding

Python's `round(x, 2)` rounds to two decimal places, ties to the even
hundredth.  We model it exactly on rationals. -/

/-- Round a rational to the nearest integer, ties to even
(Python banker's rounding). -/
def roundHalfEven (q : ℚ) : ℤ :=
  if q - ⌊q⌋ < 1/2 then ⌊q⌋
  else if 1/2 < q - ⌊q⌋ then ⌊q⌋ + 1
  else if ⌊q⌋ % 2 = 0 then ⌊q⌋ else ⌊q⌋ + 1

/-- Python `round(x, 2)`. -/
def round2 (q : ℚ) : ℚ := (roundHalfEven (q * 100) : ℚ) / 100

/-! ## The pattern detector (`PatternDetector`) -/

/-- Threshold state of `PatternDetector` after `__init__` (thresholds are
stored multiplied by 100). -/
structure PatternDetector where
  marubozuThreshold : ℚ
  dojiThreshold : ℚ
  deriving Repr, DecidableEq

/-- `PatternDetector.__init__(marubozu_threshold, doji_threshold)`. -/
def PatternDetector.init (marubozu doji : ℚ) : PatternDetector :=
  { marubozuThreshold := marubozu * 100, dojiThreshold := doji * 100 }

/-- The default detector used by `ScannerEngine` (`0.8`, `0.20`). -/
def defaultDetector : PatternDetector := PatternDetector.init (8/10) (20/100)

/-- `PatternDetector.is_marubozu`: returns `(is_marubozu, body_pct)`. -/
def PatternDetector.isMarubozu (det : PatternDetector) (c : Candle) : Bool × ℚ :=
  if c.range = 0 then (false, 0)
  else (decide (c.bodyPct ≥ det.marubozuThreshold), c.bodyPct)

/-- `PatternDetector.is_doji`: returns `(is_doji, body_pct)`. -/
def PatternDetector.isDoji (det : PatternDetector) (c : Candle) : Bool × ℚ :=
  if c.range = 0 then (false, 0)
  else (decide (c.bodyPct < det.dojiThreshold), c.bodyPct)

/-- Direction of a detected pattern. -/
inductive Direction where
  | bullish
  | bearish
  deriving Repr, DecidableEq

/-- The `pattern_details` dictionary produced on a successful match. -/
structure PatternDetails where
  direction : Direction
  marubozuBodyPct : ℚ
  dojiBodyPct : ℚ
  marubozuBodyMovePct : ℚ
  breakoutAmount : ℚ
  rejectionStrength : ℚ
  deriving Repr, DecidableEq

/-- `PatternDetector._calculate_rejection_strength`. -/
def PatternDetector.calculateRejectionStrength
    (_c1 c2 : Candle) (direction : Direction) : ℚ :=
  match direction with
  | .bullish =>
      if c2.high = c2.low then 0
      else round2 ((c2.high - c2.close) / (c2.high - c2.low) * 100)
  | .bearish =>
      if c2.high = c2.low then 0
      else round2 ((c2.close - c2.low) / (c2.high - c2.low) * 100)

/-- `PatternDetector.matches_marubozu_doji`: `some details` models the
`(True, pattern_details)` return, `none` models `(False, {})`. -/
def PatternDetector.matchesMarubozuDoji
    (det : PatternDetector) (c1 c2 : Candle) : Option PatternDetails :=
  let maru := det.isMarubozu c1
  if !maru.1 then none
  else
    let doji := det.isDoji c2
    if !doji.1 then none
    else
      let step : Option Direction :=
        if c1.isBullish then
          if c2.high ≤ c1.high then none
          else if c1.«open» < c2.close ∧ c2.close < c1.close then some .bullish
          else none
        else
          if c2.low ≥ c1.low then none
          else if c1.close < c2.close ∧ c2.close < c1.«open» then some .bearish
          else none
      match step with
      | none => none
      | some direction =>
          some {
            direction := direction
            marubozuBodyPct := round2 maru.2
            dojiBodyPct := round2 doji.2
            marubozuBodyMovePct := round2 c1.bodyMovePct
            breakoutAmount := round2 (c2.high - c1.high)
            rejectionStrength :=
              PatternDetector.calculateRejectionStrength c1 c2 direction }

/-- `PatternDetector.filter_by_min_body_move`. -/
def PatternDetector.filterByMinBodyMove
    (c : Candle) (minBodyMovePct : ℚ) : Bool :=
  decide (c.bodyMovePct ≥ minBodyMovePct)

/-- One candle pair step of `ScannerEngine.scan_symbol` (lines 127-139):
the detector match followed by the minimum-body-move filter; `some d` is
emitted iff both pass. -/
def scanPair (det : PatternDetector) (c1 c2 : Candle)
    (minBodyMovePct : ℚ) : Option PatternDetails :=
  match det.matchesMarubozuDoji c1 c2 with
  | none => none
  | some d =>
      if PatternDetector.filterByMinBodyMove c1 minBodyMovePct then some d
      else none

/-! ## Daily rows and aggregation (`src/scanner/aggregator.py`)

A daily row models one row of the input DataFrame.  `date` is an abstract
day ordinal; `isoYear`/`isoWeek` model `date.isocalendar()` and
`year`/`month` model `date.year`/`date.month`, the only attributes of a
date the aggregation and adjacency code ever reads. -/

structure DayRow where
  date : ℤ
  isoYear : ℤ
  isoWeek : ℤ
  year : ℤ
  month : ℤ
  «open» : ℚ
  high : ℚ
  low : ℚ
  close : ℚ
  volume : ℚ
  deriving Repr, DecidableEq

/-- One row of an aggregated (weekly or monthly) DataFrame.  The calendar
attributes are those of the representative `date` (the last trading day of
the period), which `check_consecutive_periods` later reads. -/
structure AggRow where
  date : ℤ
  isoYear : ℤ
  isoWeek : ℤ
  year : ℤ
  month : ℤ
  «open» : ℚ
  high : ℚ
  low : ℚ
  close : ℚ
  volume : ℚ
  days : ℕ
  deriving Repr, DecidableEq

/-- `aggregator.validate_ohlc` on a candidate row's OHLC fields. -/
def validateOhlc («open» high low close : ℚ) : Bool :=
  if low > high then false
  else if !(low ≤ «open» ∧ «open» ≤ high) then false
  else if !(low ≤ close ∧ close ≤ high) then false
  else true

/-- `validate_ohlc` applied to an aggregated candidate row. -/
def AggRow.valid (b : AggRow) : Bool :=
  validateOhlc b.«open» b.high b.low b.close

/-- `df.set_index('date').sort_index()` on the daily rows. -/
def sortRowsByDate (rows : List DayRow) : List DayRow :=
  rows.insertionSort (fun a b => a.date ≤ b.date)

/-- The weekly period key `(year, week)` from `isocalendar()`. -/
def weekKey (r : DayRow) : ℤ × ℤ := (r.isoYear, r.isoWeek)

/-- The monthly period key `(year, month)`. -/
def monthKey (r : DayRow) : ℤ × ℤ := (r.year, r.month)

/-- Lexicographic order on period keys, the order in which
`groupby(['year', week-or-month])` enumerates its groups. -/
def keyLe (a b : ℤ × ℤ) : Prop := a.1 < b.1 ∨ (a.1 = b.1 ∧ a.2 ≤ b.2)

instance : DecidableRel keyLe := fun a b => by unfold keyLe; infer_instance

/-- Collapse adjacent duplicates of a sorted list, leaving each group's key
exactly once. -/
def dedupAdj : List (ℤ × ℤ) → List (ℤ × ℤ)
  | [] => []
  | [a] => [a]
  | a :: b :: t => if a = b then dedupAdj (b :: t) else a :: dedupAdj (b :: t)

/-- The sorted list of distinct period keys of the (date-sorted) rows. -/
def groupKeys (key : DayRow → ℤ × ℤ) (rows : List DayRow) : List (ℤ × ℤ) :=
  dedupAdj ((rows.map key).insertionSort keyLe)

/-- Last element of a nonempty list given as head and tail. -/
def lastRow (r : DayRow) : List DayRow → DayRow
  | [] => r
  | s :: t => lastRow s t

/-- The candidate aggregated row built from one (nonempty, date-ordered)
group `g`: first open, last close, max high, min low, summed volume, group
size, last date. -/
def mkAggBar : List DayRow → Option AggRow
  | [] => none
  | r0 :: rest =>
      let lst := lastRow r0 rest
      some {
        date := lst.date
        isoYear := lst.isoYear
        isoWeek := lst.isoWeek
        year := lst.year
        month := lst.month
        «open» := r0.«open»
        high := rest.foldl (fun a r => max a r.high) r0.high
        low := rest.foldl (fun a r => min a r.low) r0.low
        close := lst.close
        volume := (r0 :: rest).foldl (fun a r => a + r.volume) 0
        days := (r0 :: rest).length }

/-- Sort aggregated rows by date (`pd.DataFrame(rows).sort_values('date')`). -/
def sortAggByDate (rows : List AggRow) : List AggRow :=
  rows.insertionSort (fun a b => a.date ≤ b.date)

/-- The list of candidate aggregated rows: one per period key whose group
has at least `minDays` members, before OHLC validation. -/
def candidatesBy (key : DayRow → ℤ × ℤ) (rows : List DayRow)
    (minDays : ℕ) : List AggRow :=
  let sorted := sortRowsByDate rows
  (groupKeys key sorted).filterMap fun k =>
    let g := sorted.filter fun r => key r = k
    if g.length < minDays then none else mkAggBar g

/-- `aggregator.aggregate_to_weekly(df, min_days)` (weekly grouping by ISO
`(year, week)`, candidates validated by `validate_ohlc`, result sorted by
date). -/
def aggregateToWeekly (rows : List DayRow) (minDays : ℕ) : List AggRow :=
  sortAggByDate (((candidatesBy weekKey rows minDays)).filter AggRow.valid)

/-- `aggregator.aggregate_to_monthly(df, min_days)`. -/
def aggregateToMonthly (rows : List DayRow) (minDays : ℕ) : List AggRow :=
  sortAggByDate (((candidatesBy monthKey rows minDays)).filter AggRow.valid)

/-- The candidate rows of the cache-layer aggregation
(`SmartDataManager._aggregate_to_weekly` / `_aggregate_to_monthly`,
identical copies of the `DhanClient` versions): same grouping as the
aggregator module, but with no `min_days` threshold. -/
def smartCandidatesBy (key : DayRow → ℤ × ℤ) (rows : List DayRow) :
    List AggRow :=
  let sorted := sortRowsByDate rows
  (groupKeys key sorted).filterMap fun k =>
    mkAggBar (sorted.filter fun r => key r = k)

/-- `SmartDataManager._aggregate_to_weekly` (identical to
`DhanClient._aggregate_to_weekly`): same grouping and candidate rows as the
aggregator module, but with no `min_days` threshold and no `validate_ohlc`
check.  On an empty input the final
`pd.DataFrame([]).sort_values('date')` raises `KeyError`, modelled as
`none`. -/
def smartAggregateToWeekly (rows : List DayRow) : Option (List AggRow) :=
  let cands := smartCandidatesBy weekKey rows
  if cands.isEmpty then none else some (sortAggByDate cands)

/-- `SmartDataManager._aggregate_to_monthly`. -/
def smartAggregateToMonthly (rows : List DayRow) : Option (List AggRow) :=
  let cands := smartCandidatesBy monthKey rows
  if cands.isEmpty then none else some (sortAggByDate cands)

/-! ## Calendar adjacency (`aggregator.check_consecutive_periods`) -/

/-- Whether the rows at positions `i`, `i+1` count as consecutive periods:
weekly compares the ISO `(year, week)` of the two representative dates,
monthly the `(year, month)`; any other timeframe treats every pair as
consecutive. -/
def consecutivePair (timeframe : String) (a b : AggRow) : Bool :=
  if timeframe = "1W" then
    decide ((a.isoYear = b.isoYear ∧ b.isoWeek = a.isoWeek + 1) ∨
      (a.isoYear = b.isoYear - 1 ∧ a.isoWeek ≥ 52 ∧ b.isoWeek = 1))
  else if timeframe = "1M" then
    decide ((a.year = b.year ∧ b.month = a.month + 1) ∨
      (a.year = b.year - 1 ∧ a.month = 12 ∧ b.month = 1))
  else
    true

/-- `aggregator.check_consecutive_periods(df, timeframe)`: the index pairs
`(i, i+1)` whose rows are consecutive periods. -/
def checkConsecutivePeriods (df : List AggRow) (timeframe : String) :
    List (ℕ × ℕ) :=
  (List.range (df.length - 1)).filterMap fun i =>
    match df.get? i, df.get? (i + 1) with
    | some a, some b =>
        if consecutivePair timeframe a b then some (i, i + 1) else none
    | _, _ => none

/-! ## Helper lemmas about the detector predicates and rounding -/

theorem Candle.body_nonneg (c : Candle) : 0 ≤ c.body := abs_nonneg _

/-- The marubozu test passes iff the range is strictly positive and the
body percentage reaches the 80 threshold: a negative range forces a
non-positive body percentage. -/
theorem isMarubozu_fst_iff (c : Candle) :
    (defaultDetector.isMarubozu c).1 = true ↔ 0 < c.range ∧ 80 ≤ c.bodyPct := by
  unfold PatternDetector.isMarubozu
  by_cases h : c.range = 0
  · simp [h]
  · simp only [h, if_false, decide_eq_true_eq]
    have hthr : defaultDetector.marubozuThreshold = 80 := by
      norm_num [defaultDetector, PatternDetector.init]
    rw [hthr, ge_iff_le]
    constructor
    · intro hge
      refine ⟨?_, hge⟩
      rcases lt_trichotomy c.range 0 with hlt | heq | hgt
      · exfalso
        have hdiv : c.body / c.range ≤ 0 :=
          div_nonpos_iff.mpr (Or.inl ⟨c.body_nonneg, hlt.le⟩)
        have : c.bodyPct ≤ 0 := by
          unfold Candle.bodyPct
          simp only [h, if_false]
          nlinarith
        linarith
      · exact absurd heq h
      · exact hgt
    · exact fun ⟨_, hge⟩ => hge

/-- The doji test passes iff the range is nonzero and the body percentage
is below the 20 threshold. -/
theorem isDoji_fst_iff (c : Candle) :
    (defaultDetector.isDoji c).1 = true ↔ c.range ≠ 0 ∧ c.bodyPct < 20 := by
  unfold PatternDetector.isDoji
  by_cases h : c.range = 0
  · simp [h]
  · have hthr : defaultDetector.dojiThreshold = 20 := by
      norm_num [defaultDetector, PatternDetector.init]
    simp [h, hthr]

/-- `roundHalfEven` stays between any integer bounds of its argument. -/
theorem roundHalfEven_le_of_le {q : ℚ} {lo hi : ℤ} (h1 : (lo : ℚ) ≤ q)
    (h2 : q ≤ (hi : ℚ)) : lo ≤ roundHalfEven q ∧ roundHalfEven q ≤ hi := by
  unfold roundHalfEven
  have hfl : lo ≤ ⌊q⌋ := Int.le_floor.mpr h1
  have hfq : (⌊q⌋ : ℚ) ≤ q := Int.floor_le q
  have hup : ⌊q⌋ ≤ hi := by
    have := Int.floor_le_floor h2
    simpa using this
  have hhalf : ∀ hfr : (1 : ℚ)/2 ≤ q - ⌊q⌋, ⌊q⌋ + 1 ≤ hi := by
    intro hfr
    by_contra hc
    push_neg at hc
    have : hi + 1 ≤ ⌊q⌋ + 1 := by omega
    have hq1 : (hi : ℚ) + 1 ≤ (⌊q⌋ : ℚ) + 1 := by exact_mod_cast this
    have : (⌊q⌋ : ℚ) ≤ q - 1/2 := by linarith
    linarith
  split_ifs with hA hB hC
  · exact ⟨hfl, hup⟩
  · exact ⟨by omega, hhalf (by linarith)⟩
  · exact ⟨hfl, hup⟩
  · exact ⟨by omega, hhalf (by linarith)⟩

/-- Evaluation helper: `roundHalfEven` once the floor is known. -/
theorem roundHalfEven_eval (q : ℚ) (f : ℤ) (hf : ⌊q⌋ = f) : roundHalfEven q =
    if q - f < 1/2 then f else if 1/2 < q - f then f + 1
    else if f % 2 = 0 then f else f + 1 := by
  unfold roundHalfEven
  rw [hf]

/-- `round2` preserves the `[0, 100]` window. -/
theorem round2_mem_Icc {q : ℚ} (h1 : 0 ≤ q) (h2 : q ≤ 100) :
    0 ≤ round2 q ∧ round2 q ≤ 100 := by
  have hb : (0 : ℤ) ≤ roundHalfEven (q * 100) ∧
      roundHalfEven (q * 100) ≤ (10000 : ℤ) :=
    roundHalfEven_le_of_le (by push_cast; linarith) (by push_cast; linarith)
  unfold round2
  constructor
  · have : (0 : ℚ) ≤ (roundHalfEven (q * 100) : ℚ) := by exact_mod_cast hb.1
    linarith
  · have : (roundHalfEven (q * 100) : ℚ) ≤ 10000 := by exact_mod_cast hb.2
    linarith

/-- Full case analysis of `matches_marubozu_doji`: the returned
`pattern_details` dictionary as a function of which guards passed. -/
theorem matches_some_iff (c1 c2 : Candle) (d : PatternDetails) :
    defaultDetector.matchesMarubozuDoji c1 c2 = some d ↔
    ((defaultDetector.isMarubozu c1).1 = true ∧
     (defaultDetector.isDoji c2).1 = true ∧
     ((c1.isBullish = true ∧ c1.high < c2.high ∧
        c1.«open» < c2.close ∧ c2.close < c1.close ∧
        d = { direction := Direction.bullish,
              marubozuBodyPct := round2 (defaultDetector.isMarubozu c1).2,
              dojiBodyPct := round2 (defaultDetector.isDoji c2).2,
              marubozuBodyMovePct := round2 c1.bodyMovePct,
              breakoutAmount := round2 (c2.high - c1.high),
              rejectionStrength :=
                PatternDetector.calculateRejectionStrength c1 c2
                  Direction.bullish }) ∨
      (c1.isBullish = false ∧ c2.low < c1.low ∧
        c1.close < c2.close ∧ c2.close < c1.«open» ∧
        d = { direction := Direction.bearish,
              marubozuBodyPct := round2 (defaultDetector.isMarubozu c1).2,
              dojiBodyPct := round2 (defaultDetector.isDoji c2).2,
              marubozuBodyMovePct := round2 c1.bodyMovePct,
              breakoutAmount := round2 (c2.high - c1.high),
              rejectionStrength :=
                PatternDetector.calculateRejectionStrength c1 c2
                  Direction.bearish }))) := by
  cases hm : (defaultDetector.isMarubozu c1).1 with
  | false => simp [PatternDetector.matchesMarubozuDoji, hm]
  | true =>
      cases hd : (defaultDetector.isDoji c2).1 with
      | false => simp [PatternDetector.matchesMarubozuDoji, hm, hd]
      | true =>
          cases hb : c1.isBullish with
          | true =>
              simp only [PatternDetector.matchesMarubozuDoji, hm, hd, hb,
                Bool.not_true, Bool.false_eq_true, if_false, if_true, true_and,
                Bool.true_eq_false, false_and, false_or]
              split_ifs with h1 h2 <;> simp_all
              exact eq_comm
          | false =>
              simp only [PatternDetector.matchesMarubozuDoji, hm, hd, hb,
                Bool.not_true, Bool.false_eq_true, if_false, if_true, true_and,
                Bool.true_eq_false, false_and, false_or]
              split_ifs with h1 h2 <;> simp_all
              exact eq_comm

/-! ## Helper lemmas for the aggregation claims -/

theorem validateOhlc_eq_true («open» high low close : ℚ) :
    validateOhlc «open» high low close = true ↔
      (low ≤ «open» ∧ «open» ≤ high ∧ low ≤ close ∧ close ≤ high) := by
  unfold validateOhlc
  split_ifs with h1 h2 h3
  · simp only [Bool.false_eq_true, false_iff]
    rintro ⟨ha, hb, _, _⟩
    linarith
  · simp only [Bool.not_eq_eq_eq_not, Bool.not_true, decide_eq_false_iff_not]
      at h2
    simp only [Bool.false_eq_true, false_iff]
    rintro ⟨ha, hb, _, _⟩
    exact h2 ⟨ha, hb⟩
  · simp only [Bool.not_eq_eq_eq_not, Bool.not_true, decide_eq_false_iff_not]
      at h3
    simp only [Bool.false_eq_true, false_iff]
    rintro ⟨_, _, hc, hd⟩
    exact h3 ⟨hc, hd⟩
  · simp only [Bool.not_eq_eq_eq_not, Bool.not_true, decide_eq_false_iff_not,
      not_not] at h2 h3
    simp only [true_iff]
    exact ⟨h2.1, h2.2, h3.1, h3.2⟩

theorem lastRow_mem (r : DayRow) (l : List DayRow) : lastRow r l ∈ r :: l := by
  induction l generalizing r with
  | nil => simp [lastRow]
  | cons s t ih =>
      show lastRow s t ∈ r :: s :: t
      exact List.mem_cons_of_mem r (ih s)

theorem foldl_max_le (f : DayRow → ℚ) (l : List DayRow) (init : ℚ) :
    init ≤ l.foldl (fun a r => max a (f r)) init ∧
    ∀ r ∈ l, f r ≤ l.foldl (fun a r => max a (f r)) init := by
  induction l generalizing init with
  | nil => exact ⟨le_refl _, by simp⟩
  | cons s t ih =>
      simp only [List.foldl_cons]
      obtain ⟨ih1, ih2⟩ := ih (max init (f s))
      refine ⟨le_trans (le_max_left _ _) ih1, ?_⟩
      intro r hr
      rcases List.mem_cons.mp hr with rfl | hr'
      · exact le_trans (le_max_right _ _) ih1
      · exact ih2 r hr'

theorem foldl_max_mem (f : DayRow → ℚ) (l : List DayRow) (init : ℚ) :
    l.foldl (fun a r => max a (f r)) init = init ∨
    l.foldl (fun a r => max a (f r)) init ∈ l.map f := by
  induction l generalizing init with
  | nil => exact Or.inl rfl
  | cons s t ih =>
      simp only [List.foldl_cons, List.map_cons]
      rcases ih (max init (f s)) with h | h
      · rcases max_cases init (f s) with ⟨he, _⟩ | ⟨he, _⟩
        · exact Or.inl (by rw [h, he])
        · exact Or.inr (by rw [h, he]; exact List.mem_cons_self _ _)
      · exact Or.inr (List.mem_cons_of_mem _ h)

theorem foldl_min_le (f : DayRow → ℚ) (l : List DayRow) (init : ℚ) :
    l.foldl (fun a r => min a (f r)) init ≤ init ∧
    ∀ r ∈ l, l.foldl (fun a r => min a (f r)) init ≤ f r := by
  induction l generalizing init with
  | nil => exact ⟨le_refl _, by simp⟩
  | cons s t ih =>
      simp only [List.foldl_cons]
      obtain ⟨ih1, ih2⟩ := ih (min init (f s))
      refine ⟨le_trans ih1 (min_le_left _ _), ?_⟩
      intro r hr
      rcases List.mem_cons.mp hr with rfl | hr'
      · exact le_trans ih1 (min_le_right _ _)
      · exact ih2 r hr'

theorem foldl_min_mem (f : DayRow → ℚ) (l : List DayRow) (init : ℚ) :
    l.foldl (fun a r => min a (f r)) init = init ∨
    l.foldl (fun a r => min a (f r)) init ∈ l.map f := by
  induction l generalizing init with
  | nil => exact Or.inl rfl
  | cons s t ih =>
      simp only [List.foldl_cons, List.map_cons]
      rcases ih (min init (f s)) with h | h
      · rcases min_cases init (f s) with ⟨he, _⟩ | ⟨he, _⟩
        · exact Or.inl (by rw [h, he])
        · exact Or.inr (by rw [h, he]; exact List.mem_cons_self _ _)
      · exact Or.inr (List.mem_cons_of_mem _ h)

theorem foldl_add_eq (f : DayRow → ℚ) (l : List DayRow) (init : ℚ) :
    l.foldl (fun a r => a + f r) init = init + (l.map f).sum := by
  induction l generalizing init with
  | nil => simp
  | cons s t ih =>
      simp only [List.foldl_cons, List.map_cons, List.sum_cons, ih (init + f s)]
      ring

theorem mem_dedupAdj (l : List (ℤ × ℤ)) (x : ℤ × ℤ) :
    x ∈ dedupAdj l ↔ x ∈ l := by
  induction l with
  | nil => simp [dedupAdj]
  | cons a t ih =>
      cases t with
      | nil => simp [dedupAdj]
      | cons b u =>
          unfold dedupAdj
          split_ifs with he
          · rw [ih]
            subst he
            simp
          · simp only [List.mem_cons]
            rw [ih]
            simp

theorem dedupAdj_ne_nil (l : List (ℤ × ℤ)) (a : ℤ × ℤ) :
    dedupAdj (a :: l) ≠ [] := by
  induction l generalizing a with
  | nil => simp [dedupAdj]
  | cons b u ih =>
      unfold dedupAdj
      split_ifs with he
      · exact ih b
      · simp

theorem dedupAdj_replicate (n : ℕ) (k : ℤ × ℤ) :
    dedupAdj (List.replicate (n + 1) k) = [k] := by
  induction n with
  | zero => rfl
  | succ m ih =>
      rw [List.replicate_succ, List.replicate_succ]
      unfold dedupAdj
      rw [if_pos rfl]
      rw [← List.replicate_succ]
      exact ih

theorem sorted_keyLe_replicate (n : ℕ) (k : ℤ × ℤ) :
    List.Sorted keyLe (List.replicate n k) := by
  induction n with
  | zero => simp
  | succ m ih =>
      rw [List.replicate_succ]
      refine List.Pairwise.cons ?_ ih
      intro b hb
      rw [List.eq_of_mem_replicate hb]
      exact Or.inr ⟨rfl, le_refl _⟩

theorem minDaysOne_guard (g : List DayRow) :
    (if g.length < 1 then none else mkAggBar g) = mkAggBar g := by
  cases g with
  | nil => simp [mkAggBar]
  | cons => simp

theorem mkAggBar_valid (r0 : DayRow) (rest : List DayRow) (b : AggRow)
    (hb : mkAggBar (r0 :: rest) = some b)
    (hv : ∀ r ∈ r0 :: rest,
      validateOhlc r.«open» r.high r.low r.close = true) :
    b.valid = true := by
  simp only [mkAggBar, Option.some.injEq] at hb
  subst hb
  unfold AggRow.valid
  rw [validateOhlc_eq_true]
  have h0 := (validateOhlc_eq_true _ _ _ _).mp (hv r0 (List.mem_cons_self _ _))
  have hlst := (validateOhlc_eq_true _ _ _ _).mp
    (hv (lastRow r0 rest) (lastRow_mem r0 rest))
  have hmax := foldl_max_le DayRow.high rest r0.high
  have hmin := foldl_min_le DayRow.low rest r0.low
  have hmaxl : (lastRow r0 rest).high ≤
      rest.foldl (fun a r => max a r.high) r0.high := by
    rcases List.mem_cons.mp (lastRow_mem r0 rest) with he | hmem
    · rw [he]; exact hmax.1
    · exact hmax.2 _ hmem
  have hminl : rest.foldl (fun a r => min a r.low) r0.low ≤
      (lastRow r0 rest).low := by
    rcases List.mem_cons.mp (lastRow_mem r0 rest) with he | hmem
    · rw [he]; exact hmin.1
    · exact hmin.2 _ hmem
  refine ⟨le_trans hmin.1 h0.1, le_trans h0.2.1 hmax.1, ?_, ?_⟩
  · exact le_trans hminl hlst.2.2.1
  · exact le_trans hlst.2.2.2 hmaxl

/-! ## Claim C6: malformed candidate bars are dropped, others kept -/

/-- C6: during weekly or monthly aggregation, a bar is in the output
exactly when it is one of the partition candidates and passes the OHLC
invariant: every violating candidate is omitted, every valid candidate is
emitted, and one candidate's validity does not influence another's
membership. -/
theorem claim6_drop_invalid (rows : List DayRow) (minDays : ℕ) (b : AggRow) :
    (b ∈ aggregateToWeekly rows minDays ↔
      b ∈ candidatesBy weekKey rows minDays ∧ b.valid = true) ∧
    (b ∈ aggregateToMonthly rows minDays ↔
      b ∈ candidatesBy monthKey rows minDays ∧ b.valid = true) := by
  constructor
  · unfold aggregateToWeekly sortAggByDate
    rw [List.mem_insertionSort, List.mem_filter]
  · unfold aggregateToMonthly sortAggByDate
    rw [List.mem_insertionSort, List.mem_filter]

/-! ## Claim C1: the match predicate of the scan pipeline -/

/-- C1 counterexample: the claim requires `second.range > 0` for every
emitted match, but the pipeline emits a bullish match for a second candle
whose `low` exceeds its `high` (negative range): a negative range passes
`is_doji` because the body percentage is then non-positive. -/
theorem claim1_counterexample :
    (scanPair defaultDetector
        { date := 0, «open» := 100, high := 110, low := 100, close := 109 }
        { date := 1, «open» := 106, high := 111, low := 115, close := 105 }
        0).map PatternDetails.direction = some Direction.bullish ∧
    ({ date := 1, «open» := 106, high := 111, low := 115, close := 105 } :
        Candle).range < 0 := by
  constructor
  · norm_num [scanPair, PatternDetector.matchesMarubozuDoji,
      PatternDetector.isMarubozu, PatternDetector.isDoji,
      PatternDetector.filterByMinBodyMove, Candle.isBullish, Candle.range,
      Candle.bodyPct, Candle.body, Candle.bodyMovePct, defaultDetector,
      PatternDetector.init]
  · show (111 : ℚ) - 115 < 0
    norm_num

/-- C1 (amended): for every candle pair and threshold, the scan pipeline
emits a match iff: `first.range > 0` and `first.body_pct ≥ 80`;
`first.body_move_pct ≥ minBodyMovePct`; `second.range ≠ 0` (not `> 0` as
originally claimed) and `second.body_pct < 20` (the configured doji
threshold); and the directional breakout/rejection conditions, bullish when
`first.close > first.open`, bearish otherwise.  No other outcome exists. -/
theorem claim1_scanPair_direction_iff (c1 c2 : Candle) (m : ℚ) :
    ((scanPair defaultDetector c1 c2 m).map PatternDetails.direction =
        some Direction.bullish ↔
      (0 < c1.range ∧ 80 ≤ c1.bodyPct) ∧ m ≤ c1.bodyMovePct ∧
      (c2.range ≠ 0 ∧ c2.bodyPct < 20) ∧ c1.«open» < c1.close ∧
      c1.high < c2.high ∧ c1.«open» < c2.close ∧ c2.close < c1.close) ∧
    ((scanPair defaultDetector c1 c2 m).map PatternDetails.direction =
        some Direction.bearish ↔
      (0 < c1.range ∧ 80 ≤ c1.bodyPct) ∧ m ≤ c1.bodyMovePct ∧
      (c2.range ≠ 0 ∧ c2.bodyPct < 20) ∧ ¬(c1.«open» < c1.close) ∧
      c2.low < c1.low ∧ c1.close < c2.close ∧ c2.close < c1.«open») := by
  cases hm : (defaultDetector.isMarubozu c1).1 with
  | false =>
      have hP := isMarubozu_fst_iff c1
      rw [hm] at hP
      simp only [Bool.false_eq_true, false_iff] at hP
      constructor <;>
        simp [scanPair, PatternDetector.matchesMarubozuDoji, hm, hP]
  | true =>
      have hP := (isMarubozu_fst_iff c1).mp hm
      cases hd : (defaultDetector.isDoji c2).1 with
      | false =>
          have hD := isDoji_fst_iff c2
          rw [hd] at hD
          simp only [Bool.false_eq_true, false_iff] at hD
          constructor <;>
            simp [scanPair, PatternDetector.matchesMarubozuDoji, hm, hd, hP, hD]
      | true =>
          have hD := (isDoji_fst_iff c2).mp hd
          by_cases hb : c1.«open» < c1.close
          · simp only [scanPair, PatternDetector.matchesMarubozuDoji,
              PatternDetector.filterByMinBodyMove, Candle.isBullish, hm, hd,
              Bool.not_true, Bool.false_eq_true, if_false, decide_eq_true_eq,
              gt_iff_lt, hb, if_true]
            split_ifs with h1 h2 h3 <;> simp_all
          · simp only [scanPair, PatternDetector.matchesMarubozuDoji,
              PatternDetector.filterByMinBodyMove, Candle.isBullish, hm, hd,
              Bool.not_true, Bool.false_eq_true, if_false, decide_eq_true_eq,
              gt_iff_lt, hb]
            split_ifs with h1 h2 h3 <;> simp_all

/-! ## Claim C4: breakout amount and rejection strength of a match -/

/-- C4 counterexample: on a bearish match the emitted `breakout_amount` is
`round(second.high - first.high, 2)` — here `-4` — not the claimed
`first.low - second.low` (here `1`): the code computes the bullish breakout
formula for both directions. -/
theorem claim4_counterexample :
    (defaultDetector.matchesMarubozuDoji
        { date := 0, «open» := 100, high := 101, low := 90, close := 91 }
        { date := 1, «open» := 94, high := 97, low := 89, close := 95 }).map
      PatternDetails.direction = some Direction.bearish ∧
    (defaultDetector.matchesMarubozuDoji
        { date := 0, «open» := 100, high := 101, low := 90, close := 91 }
        { date := 1, «open» := 94, high := 97, low := 89, close := 95 }).map
      PatternDetails.breakoutAmount = some (-4) ∧
    ((90 : ℚ) - 89 = 1) ∧ ((-4 : ℚ) ≠ 1) := by
  have e1 : round2 (900/11 : ℚ) = 4091/50 := by
    rw [round2, roundHalfEven_eval _ 8181 (by norm_num)]
    norm_num
  have e2 : round2 (25/2 : ℚ) = 25/2 := by
    rw [round2, roundHalfEven_eval _ 1250 (by norm_num)]
    norm_num
  have e3 : round2 (9 : ℚ) = 9 := by
    rw [round2, roundHalfEven_eval _ 900 (by norm_num)]
    norm_num
  have e4 : round2 (-4 : ℚ) = -4 := by
    rw [round2, roundHalfEven_eval _ (-400) (by norm_num)]
    norm_num
  have e5 : round2 (75 : ℚ) = 75 := by
    rw [round2, roundHalfEven_eval _ 7500 (by norm_num)]
    norm_num
  have h : defaultDetector.matchesMarubozuDoji
      { date := 0, «open» := 100, high := 101, low := 90, close := 91 }
      { date := 1, «open» := 94, high := 97, low := 89, close := 95 } =
      some { direction := Direction.bearish, marubozuBodyPct := 4091/50,
             dojiBodyPct := 25/2, marubozuBodyMovePct := 9,
             breakoutAmount := -4, rejectionStrength := 75 } := by
    rw [matches_some_iff]
    refine ⟨?_, ?_, Or.inr ⟨?_, by norm_num, by norm_num, by norm_num, ?_⟩⟩
    · norm_num [PatternDetector.isMarubozu, Candle.range, Candle.bodyPct,
        Candle.body, defaultDetector, PatternDetector.init]
    · norm_num [PatternDetector.isDoji, Candle.range, Candle.bodyPct,
        Candle.body, defaultDetector, PatternDetector.init]
    · norm_num [Candle.isBullish]
    · norm_num [PatternDetector.isMarubozu, PatternDetector.isDoji,
        PatternDetector.calculateRejectionStrength, Candle.range,
        Candle.bodyPct, Candle.body, Candle.bodyMovePct, defaultDetector,
        PatternDetector.init, e1, e2, e3, e4, e5]
  rw [h]
  norm_num

/-- C4 (amended): for every matched pair the emitted `breakout_amount`
equals `round(second.high − first.high, 2)` in BOTH directions (the claimed
bearish formula `first.low − second.low` is not what the code computes),
and `rejection_strength` equals the claimed retracement ratio rounded to
two decimals, a value within `[0, 100]` whenever the second bar satisfies
`low ≤ close ≤ high`. -/
theorem claim4_details (c1 c2 : Candle) (d : PatternDetails)
    (h : defaultDetector.matchesMarubozuDoji c1 c2 = some d) :
    d.breakoutAmount = round2 (c2.high - c1.high) ∧
    d.rejectionStrength = (match d.direction with
      | .bullish => round2 ((c2.high - c2.close) / (c2.high - c2.low) * 100)
      | .bearish => round2 ((c2.close - c2.low) / (c2.high - c2.low) * 100)) ∧
    (c2.low ≤ c2.close → c2.close ≤ c2.high →
      0 ≤ d.rejectionStrength ∧ d.rejectionStrength ≤ 100) := by
  obtain ⟨hm, hd, hcase⟩ := (matches_some_iff c1 c2 d).mp h
  have hr2 : c2.range ≠ 0 := ((isDoji_fst_iff c2).mp hd).1
  have hne : c2.high ≠ c2.low := by
    intro he
    exact hr2 (by simp [Candle.range, he])
  rcases hcase with ⟨hb, h1, h2, h3, rfl⟩ | ⟨hb, h1, h2, h3, rfl⟩
  · refine ⟨rfl, ?_, ?_⟩
    · simp [PatternDetector.calculateRejectionStrength, hne]
    · intro hlc hch
      have hlth : c2.low < c2.high :=
        lt_of_le_of_ne (le_trans hlc hch) (Ne.symm hne)
      have hpos : 0 < c2.high - c2.low := by linarith
      show 0 ≤ PatternDetector.calculateRejectionStrength c1 c2
          Direction.bullish ∧ _
      simp only [PatternDetector.calculateRejectionStrength, hne, if_false]
      have hx0 : 0 ≤ (c2.high - c2.close) / (c2.high - c2.low) * 100 := by
        have := div_nonneg (by linarith : 0 ≤ c2.high - c2.close) hpos.le
        linarith
      have hx1 : (c2.high - c2.close) / (c2.high - c2.low) * 100 ≤ 100 := by
        have hle : (c2.high - c2.close) / (c2.high - c2.low) ≤ 1 :=
          (div_le_one hpos).mpr (by linarith)
        linarith
      exact round2_mem_Icc hx0 hx1
  · refine ⟨rfl, ?_, ?_⟩
    · simp [PatternDetector.calculateRejectionStrength, hne]
    · intro hlc hch
      have hlth : c2.low < c2.high :=
        lt_of_le_of_ne (le_trans hlc hch) (Ne.symm hne)
      have hpos : 0 < c2.high - c2.low := by linarith
      show 0 ≤ PatternDetector.calculateRejectionStrength c1 c2
          Direction.bearish ∧ _
      simp only [PatternDetector.calculateRejectionStrength, hne, if_false]
      have hx0 : 0 ≤ (c2.close - c2.low) / (c2.high - c2.low) * 100 := by
        have := div_nonneg (by linarith : 0 ≤ c2.close - c2.low) hpos.le
        linarith
      have hx1 : (c2.close - c2.low) / (c2.high - c2.low) * 100 ≤ 100 := by
        have hle : (c2.close - c2.low) / (c2.high - c2.low) ≤ 1 :=
          (div_le_one hpos).mpr (by linarith)
        linarith
      exact round2_mem_Icc hx0 hx1

/-- Witness for C4: the amended theorem applied to the specification's
positive test pair `(100,110,99,109)`, `(108,111,107,108.5)`. -/
theorem claim4_witness :
    defaultDetector.matchesMarubozuDoji
        { date := 0, «open» := 100, high := 110, low := 99, close := 109 }
        { date := 1, «open» := 108, high := 111, low := 107, close := 217/2 } =
      some { direction := Direction.bullish, marubozuBodyPct := 4091/50,
             dojiBodyPct := 25/2, marubozuBodyMovePct := 9,
             breakoutAmount := 1, rejectionStrength := 125/2 } ∧
    ({ direction := Direction.bullish, marubozuBodyPct := 4091/50,
       dojiBodyPct := 25/2, marubozuBodyMovePct := 9,
       breakoutAmount := 1, rejectionStrength := 125/2 } :
        PatternDetails).breakoutAmount =
      round2 ((111 : ℚ) - 110) := by
  have e1 : round2 (900/11 : ℚ) = 4091/50 := by
    rw [round2, roundHalfEven_eval _ 8181 (by norm_num)]
    norm_num
  have e2 : round2 (25/2 : ℚ) = 25/2 := by
    rw [round2, roundHalfEven_eval _ 1250 (by norm_num)]
    norm_num
  have e3 : round2 (9 : ℚ) = 9 := by
    rw [round2, roundHalfEven_eval _ 900 (by norm_num)]
    norm_num
  have e4 : round2 (1 : ℚ) = 1 := by
    rw [round2, roundHalfEven_eval _ 100 (by norm_num)]
    norm_num
  have e5 : round2 (125/2 : ℚ) = 125/2 := by
    rw [round2, roundHalfEven_eval _ 6250 (by norm_num)]
    norm_num
  have h : defaultDetector.matchesMarubozuDoji
      { date := 0, «open» := 100, high := 110, low := 99, close := 109 }
      { date := 1, «open» := 108, high := 111, low := 107, close := 217/2 } =
      some { direction := Direction.bullish, marubozuBodyPct := 4091/50,
             dojiBodyPct := 25/2, marubozuBodyMovePct := 9,
             breakoutAmount := 1, rejectionStrength := 125/2 } := by
    have habs : |(1 : ℚ)/2| = 1/2 := by norm_num
    rw [matches_some_iff]
    refine ⟨?_, ?_, Or.inl ⟨?_, by norm_num, by norm_num, by norm_num, ?_⟩⟩
    · norm_num [PatternDetector.isMarubozu, Candle.range, Candle.bodyPct,
        Candle.body, defaultDetector, PatternDetector.init]
    · norm_num [PatternDetector.isDoji, Candle.range, Candle.bodyPct,
        Candle.body, defaultDetector, PatternDetector.init, habs]
    · norm_num [Candle.isBullish]
    · norm_num [PatternDetector.isMarubozu, PatternDetector.isDoji,
        PatternDetector.calculateRejectionStrength, Candle.range,
        Candle.bodyPct, Candle.body, Candle.bodyMovePct, defaultDetector,
        PatternDetector.init, habs, e1, e2, e3, e4, e5]
  exact ⟨h, (claim4_details _ _ _ h).1⟩

/-! ## Claim C2: calendar adjacency of consecutive aggregated rows -/

/-- C2: a consecutive index pair `(i, i+1)` is marked adjacent exactly
when: weekly — same ISO year with week `+1`, or next ISO year with the
earlier week `≥ 52` and the later week `= 1`; monthly — same year with
month `+1`, or December followed by January of the next year; daily —
always.  In particular `(Y,52)→(Y+1,1)` and `(Y,Dec)→(Y+1,Jan)` are
adjacent and `(Y,5)→(Y,7)` is not (instances discharged in the witness). -/
theorem claim2_consecutive_iff (df : List AggRow) (i : ℕ) (a b : AggRow)
    (ha : df.get? i = some a) (hb : df.get? (i + 1) = some b) :
    (((i, i + 1) ∈ checkConsecutivePeriods df "1W") ↔
      ((a.isoYear = b.isoYear ∧ b.isoWeek = a.isoWeek + 1) ∨
       (b.isoYear = a.isoYear + 1 ∧ 52 ≤ a.isoWeek ∧ b.isoWeek = 1))) ∧
    (((i, i + 1) ∈ checkConsecutivePeriods df "1M") ↔
      ((a.year = b.year ∧ b.month = a.month + 1) ∨
       (b.year = a.year + 1 ∧ a.month = 12 ∧ b.month = 1))) ∧
    ((i, i + 1) ∈ checkConsecutivePeriods df "1D") := by
  have hlen : i + 1 < df.length := (List.get?_eq_some.mp hb).1
  have hmem :
      ∀ tf, ((i, i + 1) ∈ checkConsecutivePeriods df tf ↔
        consecutivePair tf a b = true) := by
    intro tf
    unfold checkConsecutivePeriods
    rw [List.mem_filterMap]
    constructor
    · rintro ⟨j, _, hfj⟩
      cases hj1 : df.get? j with
      | none => rw [hj1] at hfj; simp at hfj
      | some x =>
          cases hj2 : df.get? (j + 1) with
          | none => rw [hj1, hj2] at hfj; simp at hfj
          | some y =>
              rw [hj1, hj2] at hfj
              dsimp only at hfj
              by_cases hc : consecutivePair tf x y = true
              · rw [if_pos hc] at hfj
                have hji : j = i := by
                  have := (Option.some.injEq _ _).mp hfj
                  exact (Prod.mk.injEq _ _ _ _).mp this |>.1
                subst hji
                rw [hj1] at ha
                rw [hj2] at hb
                cases ha
                cases hb
                exact hc
              · rw [if_neg hc] at hfj
                simp at hfj
    · intro hc
      refine ⟨i, List.mem_range.mpr (by omega), ?_⟩
      rw [ha, hb]
      dsimp only
      rw [if_pos hc]
  refine ⟨?_, ?_, ?_⟩
  · rw [hmem "1W"]
    unfold consecutivePair
    rw [if_pos rfl, decide_eq_true_eq]
    omega
  · rw [hmem "1M"]
    unfold consecutivePair
    rw [if_neg (by decide : ¬("1M" = "1W")), if_pos rfl, decide_eq_true_eq]
    omega
  · rw [hmem "1D"]
    unfold consecutivePair
    rw [if_neg (by decide : ¬("1D" = "1W")),
      if_neg (by decide : ¬("1D" = "1M"))]

/-- A degenerate aggregated row at a given calendar position, used as test
fixture for the adjacency instances. -/
def aggRowAt (date isoYear isoWeek year month : ℤ) : AggRow :=
  { date := date, isoYear := isoYear, isoWeek := isoWeek, year := year,
    month := month, «open» := 1, high := 1, low := 1, close := 1,
    volume := 0, days := 5 }

/-- Witness for C2, instantiating the theorem at the three specification
instances: ISO week `(2020, 52) → (2021, 1)` is adjacent, week
`(2021, 5) → (2021, 7)` is not, and `(2020, December) → (2021, January)`
is adjacent. -/
theorem claim2_witness :
    ((0, 1) ∈ checkConsecutivePeriods
      [aggRowAt 0 2020 52 2020 12, aggRowAt 7 2021 1 2021 1] "1W") ∧
    ¬((0, 1) ∈ checkConsecutivePeriods
      [aggRowAt 0 2021 5 2021 2, aggRowAt 14 2021 7 2021 2] "1W") ∧
    ((0, 1) ∈ checkConsecutivePeriods
      [aggRowAt 0 2020 53 2020 12, aggRowAt 31 2020 53 2021 1] "1M") := by
  refine ⟨?_, ?_, ?_⟩
  · exact (claim2_consecutive_iff
      [aggRowAt 0 2020 52 2020 12, aggRowAt 7 2021 1 2021 1] 0
      (aggRowAt 0 2020 52 2020 12) (aggRowAt 7 2021 1 2021 1)
      rfl rfl).1.mpr (Or.inr (by norm_num [aggRowAt]))
  · intro hmem
    have h := (claim2_consecutive_iff
      [aggRowAt 0 2021 5 2021 2, aggRowAt 14 2021 7 2021 2] 0
      (aggRowAt 0 2021 5 2021 2) (aggRowAt 14 2021 7 2021 2)
      rfl rfl).1.mp hmem
    norm_num [aggRowAt] at h
  · exact (claim2_consecutive_iff
      [aggRowAt 0 2020 53 2020 12, aggRowAt 31 2020 53 2021 1] 0
      (aggRowAt 0 2020 53 2020 12) (aggRowAt 31 2020 53 2021 1)
      rfl rfl).2.1.mpr (Or.inr (by norm_num [aggRowAt]))

/-! ## Claim C3: weekly aggregation of a single-week input -/

/-- C3: for a non-empty, chronologically ordered list of daily bars that
all fall in the same ISO week and each satisfy the OHLC invariant, weekly
aggregation emits exactly one bar: open of the first day, close and
representative date of the last day, the extrema of highs/lows, the summed
volume, and the day count. -/
theorem claim3_weekly_single_week (r0 : DayRow) (rest : List DayRow)
    (hsort : (r0 :: rest).Pairwise (fun x y : DayRow => x.date < y.date))
    (hweek : ∀ r ∈ r0 :: rest, weekKey r = weekKey r0)
    (hvalid : ∀ r ∈ r0 :: rest,
      validateOhlc r.«open» r.high r.low r.close = true) :
    ∃ b : AggRow,
      aggregateToWeekly (r0 :: rest) 1 = [b] ∧
      b.«open» = r0.«open» ∧
      b.close = (lastRow r0 rest).close ∧
      b.date = (lastRow r0 rest).date ∧
      b.high ∈ (r0 :: rest).map DayRow.high ∧
      (∀ r ∈ r0 :: rest, r.high ≤ b.high) ∧
      b.low ∈ (r0 :: rest).map DayRow.low ∧
      (∀ r ∈ r0 :: rest, b.low ≤ r.low) ∧
      b.volume = ((r0 :: rest).map DayRow.volume).sum ∧
      b.days = (r0 :: rest).length := by
  have hsorted_eq : sortRowsByDate (r0 :: rest) = r0 :: rest := by
    unfold sortRowsByDate
    exact List.Sorted.insertionSort_eq (hsort.imp fun h => le_of_lt h)
  have hmap : (r0 :: rest).map weekKey =
      List.replicate (rest.length + 1) (weekKey r0) := by
    rw [List.eq_replicate_iff]
    refine ⟨by simp, ?_⟩
    intro x hx
    obtain ⟨r, hr, rfl⟩ := List.mem_map.mp hx
    exact hweek r hr
  have hkeys : groupKeys weekKey (r0 :: rest) = [weekKey r0] := by
    unfold groupKeys
    rw [hmap, List.Sorted.insertionSort_eq (sorted_keyLe_replicate _ _)]
    exact dedupAdj_replicate rest.length (weekKey r0)
  have hfilter : List.filter (fun r => decide (weekKey r = weekKey r0))
      (r0 :: rest) = r0 :: rest := by
    rw [List.filter_eq_self]
    intro r hr
    simp [hweek r hr]
  have hcands : candidatesBy weekKey (r0 :: rest) 1 =
      (mkAggBar (r0 :: rest)).toList := by
    simp only [candidatesBy]
    rw [hsorted_eq, hkeys]
    rw [List.filterMap_cons, List.filterMap_nil]
    rw [hfilter]
    rw [minDaysOne_guard]
    cases h : mkAggBar (r0 :: rest) <;> simp [h]
  obtain ⟨b, hb⟩ : ∃ b, mkAggBar (r0 :: rest) = some b := ⟨_, rfl⟩
  have hbvalid : b.valid = true := mkAggBar_valid r0 rest b hb hvalid
  have hagg : aggregateToWeekly (r0 :: rest) 1 = [b] := by
    unfold aggregateToWeekly
    rw [hcands, hb]
    simp only [Option.toList_some]
    rw [List.filter_cons_of_pos (by simpa using hbvalid), List.filter_nil]
    unfold sortAggByDate
    simp [List.insertionSort, List.orderedInsert]
  simp only [mkAggBar, Option.some.injEq] at hb
  subst hb
  refine ⟨_, hagg, rfl, rfl, rfl, ?_, ?_, ?_, ?_, ?_, rfl⟩
  · show List.foldl (fun a r => max a (DayRow.high r)) r0.high rest ∈
      (r0 :: rest).map DayRow.high
    rcases foldl_max_mem DayRow.high rest r0.high with h | h
    · rw [h]; exact List.mem_map_of_mem DayRow.high (List.mem_cons_self _ _)
    · rw [List.map_cons]; exact List.mem_cons_of_mem _ h
  · intro r hr
    show DayRow.high r ≤ List.foldl (fun a r => max a (DayRow.high r)) r0.high rest
    rcases List.mem_cons.mp hr with rfl | hr'
    · exact (foldl_max_le DayRow.high rest r.high).1
    · exact (foldl_max_le DayRow.high rest r0.high).2 r hr'
  · show List.foldl (fun a r => min a (DayRow.low r)) r0.low rest ∈
      (r0 :: rest).map DayRow.low
    rcases foldl_min_mem DayRow.low rest r0.low with h | h
    · rw [h]; exact List.mem_map_of_mem DayRow.low (List.mem_cons_self _ _)
    · rw [List.map_cons]; exact List.mem_cons_of_mem _ h
  · intro r hr
    show List.foldl (fun a r => min a (DayRow.low r)) r0.low rest ≤ DayRow.low r
    rcases List.mem_cons.mp hr with rfl | hr'
    · exact (foldl_min_le DayRow.low rest r.low).1
    · exact (foldl_min_le DayRow.low rest r0.low).2 r hr'
  · show List.foldl (fun a r => a + DayRow.volume r) 0 (r0 :: rest) =
      ((r0 :: rest).map DayRow.volume).sum
    rw [foldl_add_eq]
    simp

/-- A valid daily row fixture: first day of an ISO week. -/
def dayA : DayRow :=
  { date := 0, isoYear := 2024, isoWeek := 2, year := 2024, month := 1,
    «open» := 10, high := 12, low := 9, close := 11, volume := 100 }

/-- A valid daily row fixture: second day of the same ISO week. -/
def dayB : DayRow :=
  { date := 1, isoYear := 2024, isoWeek := 2, year := 2024, month := 1,
    «open» := 11, high := 13, low := 10, close := 12, volume := 150 }

/-- Witness for C3: the theorem applied to two concrete days of one ISO
week. -/
theorem claim3_witness :
    ([dayA, dayB].Pairwise (fun x y : DayRow => x.date < y.date)) ∧
    (∀ r ∈ [dayA, dayB], weekKey r = weekKey dayA) ∧
    (∀ r ∈ [dayA, dayB],
      validateOhlc r.«open» r.high r.low r.close = true) ∧
    ∃ b : AggRow,
      aggregateToWeekly [dayA, dayB] 1 = [b] ∧
      b.«open» = dayA.«open» ∧
      b.volume = ([dayA, dayB].map DayRow.volume).sum := by
  refine ⟨by decide, by decide, by decide, ?_⟩
  obtain ⟨b, h1, h2, _, _, _, _, _, _, h9, _⟩ :=
    claim3_weekly_single_week dayA [dayB] (by decide) (by decide) (by decide)
  exact ⟨b, h1, h2, h9⟩

/-! ## Claim C5: cache-layer aggregation vs aggregator module -/

/-- An OHLC-invalid daily row fixture (`low > high`). -/
def badDay : DayRow :=
  { date := 0, isoYear := 2024, isoWeek := 2, year := 2024, month := 1,
    «open» := 2, high := 1, low := 3, close := 2, volume := 0 }

/-- C5 counterexample: the cache-layer aggregation has no `validate_ohlc`
filter, so on an input with one invariant-violating daily row it keeps a
candidate bar that the aggregator module drops; and on the empty input the
cache-layer version raises (modelled `none`) while the aggregator module
returns the empty frame. -/
theorem claim5_counterexample :
    smartAggregateToWeekly [badDay] ≠ some (aggregateToWeekly [badDay] 1) ∧
    smartAggregateToWeekly [] = none ∧
    aggregateToWeekly [] 1 = [] := by
  refine ⟨by decide, by decide, by decide⟩

theorem mem_sortRowsByDate (x : DayRow) (rows : List DayRow) :
    x ∈ sortRowsByDate rows ↔ x ∈ rows := by
  unfold sortRowsByDate
  exact List.mem_insertionSort _

theorem candidatesBy_one (key : DayRow → ℤ × ℤ) (rows : List DayRow) :
    candidatesBy key rows 1 = smartCandidatesBy key rows := by
  simp only [candidatesBy, smartCandidatesBy]
  congr 1
  funext k
  exact minDaysOne_guard _

theorem smartCandidatesBy_ne_nil (key : DayRow → ℤ × ℤ)
    (rows : List DayRow) (hne : rows ≠ []) :
    smartCandidatesBy key rows ≠ [] := by
  have hs_ne : sortRowsByDate rows ≠ [] := by
    intro h0
    have hlen : (sortRowsByDate rows).length = rows.length :=
      (List.perm_insertionSort _ rows).length_eq
    rw [h0] at hlen
    exact hne (List.eq_nil_of_length_eq_zero hlen.symm)
  have hmap_ne : (sortRowsByDate rows).map key ≠ [] := by
    simpa using hs_ne
  have hsort_ne : ((sortRowsByDate rows).map key).insertionSort keyLe ≠ [] := by
    intro h0
    have hlen := (List.perm_insertionSort keyLe
      ((sortRowsByDate rows).map key)).length_eq
    rw [h0] at hlen
    exact hmap_ne (List.eq_nil_of_length_eq_zero hlen.symm)
  obtain ⟨k0, krest, hk⟩ := List.exists_cons_of_ne_nil hsort_ne
  have hkeys : groupKeys key (sortRowsByDate rows) =
      dedupAdj (k0 :: krest) := by
    unfold groupKeys
    rw [hk]
  obtain ⟨q0, qrest, hq⟩ := List.exists_cons_of_ne_nil
    (hkeys ▸ dedupAdj_ne_nil krest k0 :
      groupKeys key (sortRowsByDate rows) ≠ [])
  have hq0_mem : q0 ∈ (sortRowsByDate rows).map key := by
    have : q0 ∈ groupKeys key (sortRowsByDate rows) := by
      rw [hq]; exact List.mem_cons_self _ _
    rw [hkeys, mem_dedupAdj, ← hk] at this
    exact (List.mem_insertionSort _).mp this
  obtain ⟨r, hr, hrk⟩ := List.mem_map.mp hq0_mem
  have hfil_ne : (sortRowsByDate rows).filter
      (fun x => decide (key x = q0)) ≠ [] := by
    intro h0
    have : r ∈ (sortRowsByDate rows).filter (fun x => decide (key x = q0)) :=
      List.mem_filter.mpr ⟨hr, by simp [hrk]⟩
    rw [h0] at this
    exact List.not_mem_nil r this
  obtain ⟨g0, grest, hg⟩ := List.exists_cons_of_ne_nil hfil_ne
  simp only [smartCandidatesBy]
  rw [hq, List.filterMap_cons, hg]
  simp [mkAggBar]

theorem smartCandidatesBy_all_valid (key : DayRow → ℤ × ℤ)
    (rows : List DayRow)
    (hvalid : ∀ r ∈ rows,
      validateOhlc r.«open» r.high r.low r.close = true) :
    ∀ b ∈ smartCandidatesBy key rows, b.valid = true := by
  intro b hb
  unfold smartCandidatesBy at hb
  rw [List.mem_filterMap] at hb
  obtain ⟨k, _, hbk⟩ := hb
  cases hg : (sortRowsByDate rows).filter (fun r => decide (key r = k)) with
  | nil => rw [hg] at hbk; simp [mkAggBar] at hbk
  | cons r0 rest =>
      rw [hg] at hbk
      refine mkAggBar_valid r0 rest b hbk ?_
      intro r hr
      have hrf : r ∈ (sortRowsByDate rows).filter
          (fun r => decide (key r = k)) := by rw [hg]; exact hr
      have hrs : r ∈ sortRowsByDate rows := List.mem_of_mem_filter hrf
      exact hvalid r ((mem_sortRowsByDate r rows).mp hrs)

/-- C5 (amended): for every NON-EMPTY daily input all of whose rows satisfy
the OHLC invariant, the cache-layer weekly and monthly aggregations produce
exactly the aggregator module's bars (with `minTradingDays = 1`); without
those restrictions the two differ (see the counterexample: the cache layer
skips `validate_ohlc`, and it raises on an empty input). -/
theorem claim5_smart_eq_aggregator (rows : List DayRow) (hne : rows ≠ [])
    (hvalid : ∀ r ∈ rows,
      validateOhlc r.«open» r.high r.low r.close = true) :
    smartAggregateToWeekly rows = some (aggregateToWeekly rows 1) ∧
    smartAggregateToMonthly rows = some (aggregateToMonthly rows 1) := by
  constructor
  · have h1 := candidatesBy_one weekKey rows
    have h2 := smartCandidatesBy_ne_nil weekKey rows hne
    have h3 : (smartCandidatesBy weekKey rows).filter AggRow.valid =
        smartCandidatesBy weekKey rows :=
      List.filter_eq_self.mpr (smartCandidatesBy_all_valid weekKey rows hvalid)
    unfold smartAggregateToWeekly aggregateToWeekly
    rw [h1, h3, if_neg (by simpa using h2)]
  · have h1 := candidatesBy_one monthKey rows
    have h2 := smartCandidatesBy_ne_nil monthKey rows hne
    have h3 : (smartCandidatesBy monthKey rows).filter AggRow.valid =
        smartCandidatesBy monthKey rows :=
      List.filter_eq_self.mpr (smartCandidatesBy_all_valid monthKey rows hvalid)
    unfold smartAggregateToMonthly aggregateToMonthly
    rw [h1, h3, if_neg (by simpa using h2)]

/-- Witness for C5: the amended equivalence at a concrete two-day valid
input. -/
theorem claim5_witness :
    ([dayA, dayB] ≠ ([] : List DayRow)) ∧
    smartAggregateToWeekly [dayA, dayB] =
      some (aggregateToWeekly [dayA, dayB] 1) := by
  refine ⟨by decide, ?_⟩
  exact (claim5_smart_eq_aggregator [dayA, dayB] (by decide) (by decide)).1

/-! ## Claim C7: idempotent upsert of daily bars

`SQLiteDBManager.bulk_insert_daily_ohlc` writes each record with
`INSERT OR REPLACE` into `daily_ohlc`, whose schema declares
`UNIQUE(symbol_id, trade_date)`; `DatabaseManager.bulk_insert_daily_ohlc`
(Postgres) uses `ON CONFLICT (symbol_id, trade_date) DO UPDATE`.  The
stored table is modelled as a map from the unique key to the row payload. -/

/-- One record passed to `bulk_insert_daily_ohlc`. -/
structure InsertRecord where
  symbolId : ℕ
  tradeDate : ℤ
  «open» : ℚ
  high : ℚ
  low : ℚ
  close : ℚ
  volume : ℤ
  deriving Repr, DecidableEq

/-- A stored `daily_ohlc` row in the SQLite schema, including the derived
columns computed by `bulk_insert_daily_ohlc`. -/
structure StoredRow where
  «open» : ℚ
  high : ℚ
  low : ℚ
  close : ℚ
  volume : ℤ
  bodySize : ℚ
  rangeSize : ℚ
  bodyPct : ℚ
  changePct : ℚ
  isBullish : ℕ
  deriving Repr, DecidableEq

/-- The derived-field computation of
`SQLiteDBManager.bulk_insert_daily_ohlc`. -/
def derivedRow (r : InsertRecord) : StoredRow :=
  let bodySize := |r.close - r.«open»|
  let rangeSize := r.high - r.low
  { «open» := r.«open», high := r.high, low := r.low, close := r.close,
    volume := r.volume,
    bodySize := bodySize, rangeSize := rangeSize,
    bodyPct := if rangeSize > 0 then bodySize / rangeSize * 100 else 0,
    changePct := if r.«open» > 0 then
      (r.close - r.«open») / r.«open» * 100 else 0,
    isBullish := if r.close > r.«open» then 1 else 0 }

/-- A stored Postgres `daily_ohlc` payload (no derived columns). -/
structure PgRow where
  «open» : ℚ
  high : ℚ
  low : ℚ
  close : ℚ
  volume : ℤ
  deriving Repr, DecidableEq

/-- The Postgres row written by the `ON CONFLICT DO UPDATE` upsert. -/
def pgRowOf (r : InsertRecord) : PgRow :=
  { «open» := r.«open», high := r.high, low := r.low, close := r.close,
    volume := r.volume }

/-- Write one record into a table keyed on `(symbol_id, trade_date)`:
a row under the same key is replaced, never duplicated. -/
def upsertKeyed {β : Type} (val : InsertRecord → β)
    (st : ℕ × ℤ → Option β) (r : InsertRecord) : ℕ × ℤ → Option β :=
  fun k => if k = (r.symbolId, r.tradeDate) then some (val r) else st k

/-- `SQLiteDBManager.bulk_insert_daily_ohlc`: upsert every record in order
and return the count of processed records. -/
def bulkInsertDailyOhlc (st : ℕ × ℤ → Option StoredRow)
    (data : List InsertRecord) : (ℕ × ℤ → Option StoredRow) × ℕ :=
  (data.foldl (upsertKeyed derivedRow) st, data.length)

/-- `DatabaseManager.bulk_insert_daily_ohlc` (Postgres). -/
def pgBulkInsertDailyOhlc (st : ℕ × ℤ → Option PgRow)
    (data : List InsertRecord) : ℕ × ℤ → Option PgRow :=
  data.foldl (upsertKeyed pgRowOf) st

/-- The value stored under key `k` after a bulk upsert is the payload of
the last record written with that key, or the prior value. -/
theorem foldl_upsertKeyed_apply {β : Type} (val : InsertRecord → β)
    (data : List InsertRecord) (st : ℕ × ℤ → Option β) (k : ℕ × ℤ) :
    (data.foldl (upsertKeyed val) st) k =
    match data.reverse.find?
        (fun r => decide ((r.symbolId, r.tradeDate) = k)) with
    | some r => some (val r)
    | none => st k := by
  induction data generalizing st with
  | nil => simp
  | cons r d ih =>
      rw [List.foldl_cons, ih (upsertKeyed val st r)]
      rw [List.reverse_cons, List.find?_append]
      cases hf : d.reverse.find?
          (fun r => decide ((r.symbolId, r.tradeDate) = k)) with
      | some r' => rfl
      | none =>
          simp only [Option.none_or]
          unfold upsertKeyed
          by_cases hk : (r.symbolId, r.tradeDate) = k
          · rw [List.find?_cons_of_pos _ (by simp [hk]), if_pos hk.symm]
          · rw [List.find?_cons_of_neg _ (by simp [hk]), List.find?_nil,
              if_neg (fun h => hk h.symm)]

/-- C7: bulk-upserting the same daily bar rows twice leaves the stored
state identical to upserting them once — for both the SQLite
`INSERT OR REPLACE` implementation (with its derived columns) and the
Postgres `ON CONFLICT DO UPDATE` implementation — the write is keyed on
`(symbol_id, trade_date)` so a repeated row replaces rather than
duplicates, and the returned count is the number of records. -/
theorem claim7_upsert_idempotent (st : ℕ × ℤ → Option StoredRow)
    (pst : ℕ × ℤ → Option PgRow) (data : List InsertRecord)
    (r : InsertRecord) :
    (bulkInsertDailyOhlc (bulkInsertDailyOhlc st data).1 data).1 =
      (bulkInsertDailyOhlc st data).1 ∧
    pgBulkInsertDailyOhlc (pgBulkInsertDailyOhlc pst data) data =
      pgBulkInsertDailyOhlc pst data ∧
    (bulkInsertDailyOhlc st data).2 = data.length ∧
    upsertKeyed derivedRow st r (r.symbolId, r.tradeDate) =
      some (derivedRow r) := by
  refine ⟨?_, ?_, rfl, by simp [upsertKeyed]⟩
  · funext k
    simp only [bulkInsertDailyOhlc]
    rw [foldl_upsertKeyed_apply, foldl_upsertKeyed_apply]
    cases data.reverse.find?
        (fun r => decide ((r.symbolId, r.tradeDate) = k)) <;> rfl
  · funext k
    simp only [pgBulkInsertDailyOhlc]
    rw [foldl_upsertKeyed_apply, foldl_upsertKeyed_apply]
    cases data.reverse.find?
        (fun r => decide ((r.symbolId, r.tradeDate) = k)) <;> rfl

/-! ## Claim C8: the upstream daily-bar fetch never raises

`DhanClient.get_historical_data` wraps the whole request/parse in
`try/except`: a non-success response returns an empty DataFrame, and any
exception raised during fetch or parsing is caught and also returns an
empty DataFrame, so the `retry_on_failure` decorator (which re-raises only
when the wrapped function raises) never re-raises.  One upstream attempt is
modelled by a `FetchOutcome`; timestamps are day ordinals and the
`+1 day` alignment shift adds one. -/

/-- One raw bar parsed from the upstream response arrays. -/
structure RawBar where
  timestamp : ℤ
  «open» : ℚ
  high : ℚ
  low : ℚ
  close : ℚ
  volume : ℚ
  deriving Repr, DecidableEq

/-- What one upstream attempt does: returns a response dictionary
(`status`, data arrays), or raises somewhere inside the `try` block. -/
inductive FetchOutcome where
  | response (status : String) (data : List RawBar)
  | raised (msg : String)

/-- `df.sort_values("timestamp")`. -/
def sortByTimestamp (l : List RawBar) : List RawBar :=
  l.insertionSort (fun a b => a.timestamp ≤ b.timestamp)

/-- The `timestamps + pd.Timedelta(days=1)` trading-date alignment. -/
def shiftOneDay (r : RawBar) : RawBar := { r with timestamp := r.timestamp + 1 }

/-- The body of `DhanClient.get_historical_data` for one attempt: empty on
a caught exception, empty on a non-success status, otherwise the shifted
bars sorted by timestamp. -/
def getHistoricalDataOnce (outcome : FetchOutcome) : List RawBar :=
  match outcome with
  | .raised _ => []
  | .response status data =>
      if status ≠ "success" then []
      else sortByTimestamp (data.map shiftOneDay)

/-- The loop of the `retry_on_failure` decorator: run attempts in order;
return the first non-raising result; once the budget is spent, re-raise. -/
def retryRun {α : Type} (f : ℕ → Except String α) :
    ℕ → ℕ → Except String α
  | attempt, 0 => f attempt
  | attempt, remaining + 1 =>
      match f attempt with
      | .ok a => .ok a
      | .error _ => retryRun f (attempt + 1) remaining

/-- `retry_on_failure(retries)` applied to an attempt-indexed body. -/
def retryOnFailure {α : Type} (f : ℕ → Except String α)
    (retries : ℕ) : Except String α :=
  retryRun f 1 (retries - 1)

/-- The decorated `get_historical_data` (default `retries = 3`), given the
outcome of each upstream attempt. -/
def getHistoricalData (outcomes : ℕ → FetchOutcome) :
    Except String (List RawBar) :=
  retryOnFailure
    (fun attempt => Except.ok (getHistoricalDataOnce (outcomes attempt))) 3

/-- C8: the decorated fetch always returns `ok` with the first attempt's
(possibly empty) bar list — never an exception; the returned bars are
ordered by timestamp; a caught exception yields `[]`; and a non-success
upstream status yields `[]`. -/
theorem claim8_fetch_total_ordered (outcomes : ℕ → FetchOutcome)
    (status : String) (data : List RawBar) (msg : String)
    (hstatus : status ≠ "success") :
    getHistoricalData outcomes =
      Except.ok (getHistoricalDataOnce (outcomes 1)) ∧
    (∀ oc, List.Sorted (fun a b : RawBar => a.timestamp ≤ b.timestamp)
      (getHistoricalDataOnce oc)) ∧
    getHistoricalDataOnce (FetchOutcome.raised msg) = [] ∧
    getHistoricalDataOnce (FetchOutcome.response status data) = [] := by
  refine ⟨rfl, ?_, rfl, ?_⟩
  · intro oc
    cases oc with
    | raised m => exact List.sorted_nil
    | response st d =>
        unfold getHistoricalDataOnce
        dsimp only
        split_ifs with h
        · exact List.sorted_nil
        · unfold sortByTimestamp
          haveI : IsTotal RawBar (fun a b => a.timestamp ≤ b.timestamp) :=
            ⟨fun a b => le_total _ _⟩
          haveI : IsTrans RawBar (fun a b => a.timestamp ≤ b.timestamp) :=
            ⟨fun _ _ _ h1 h2 => le_trans h1 h2⟩
          exact List.sorted_insertionSort _ _
  · unfold getHistoricalDataOnce
    dsimp only
    rw [if_pos hstatus]

/-- Witness for C8: the first attempt raising yields `ok []`, and a
`"failure"` status yields `[]`. -/
theorem claim8_witness :
    ("failure" : String) ≠ "success" ∧
    getHistoricalData (fun _ => FetchOutcome.raised "boom") =
      Except.ok [] ∧
    getHistoricalDataOnce (FetchOutcome.response "failure"
      [{ timestamp := 0, «open» := 1, high := 1, low := 1, close := 1,
         volume := 0 }]) = [] := by
  have h := claim8_fetch_total_ordered (fun _ => FetchOutcome.raised "boom")
    "failure"
    [{ timestamp := 0, «open» := 1, high := 1, low := 1, close := 1,
       volume := 0 }] "boom" (by decide)
  refine ⟨by decide, ?_, h.2.2.2⟩
  rw [h.1, h.2.2.1]

/-! ## The scan orchestrator (`src/scanner/scanner_engine.py`) -/

/-- `ScannerEngine._to_candle_list` on a daily row. -/
def toCandleFromRow (r : DayRow) : Candle :=
  { date := r.date, «open» := r.«open», high := r.high, low := r.low,
    close := r.close, volume := r.volume }

/-- `ScannerEngine._to_candle_list` on an aggregated row. -/
def toCandleFromAgg (a : AggRow) : Candle :=
  { date := a.date, «open» := a.«open», high := a.high, low := a.low,
    close := a.close, volume := a.volume }

/-- One entry of the result list built by `scan_symbol` (the fields the
claims are about: identifying data, direction and derived metrics). -/
structure MatchRec where
  symbol : String
  timeframe : String
  direction : Direction
  marubozu : Candle
  doji : Candle
  breakoutAmount : ℚ
  rejectionStrength : ℚ
  deriving Repr, DecidableEq

/-- The result dictionary built for one matched pair. -/
def mkMatchRec (symbol timeframe : String) (c1 c2 : Candle)
    (d : PatternDetails) : MatchRec :=
  { symbol := symbol, timeframe := timeframe, direction := d.direction,
    marubozu := c1, doji := c2, breakoutAmount := d.breakoutAmount,
    rejectionStrength := d.rejectionStrength }

/-- The `(i, i+1)` pairs used for the daily timeframe. -/
def pairsDaily (n : ℕ) : List (ℕ × ℕ) :=
  (List.range (n - 1)).map fun i => (i, i + 1)

/-- The pair loop of `scan_symbol`: for each validated index pair, run the
detector and the minimum-body-move filter, collecting result records. -/
def scanMatches (det : PatternDetector) (symbol timeframe : String)
    (candles : List Candle) (pairs : List (ℕ × ℕ)) (minMove : ℚ) :
    List MatchRec :=
  pairs.filterMap fun p =>
    match candles.get? p.1, candles.get? p.2 with
    | some c1, some c2 =>
        match scanPair det c1 c2 minMove with
        | none => none
        | some d => some (mkMatchRec symbol timeframe c1 c2 d)
    | _, _ => none

/-- The body of `ScannerEngine.scan_symbol` inside its `try`: aggregation
(which raises `ValueError` on an unknown timeframe), the
fewer-than-2-bars skip, adjacency pairs, and the pair loop. -/
def scanSymbolBody (det : PatternDetector) (symbol : String)
    (df : List DayRow) (timeframe : String) (minMove : ℚ) :
    Except String (List MatchRec) :=
  if timeframe = "1D" then
    if df.length < 2 then Except.ok []
    else Except.ok (scanMatches det symbol timeframe
      (df.map toCandleFromRow) (pairsDaily df.length) minMove)
  else if timeframe = "1W" then
    let dfAgg := aggregateToWeekly df 1
    if dfAgg.length < 2 then Except.ok []
    else Except.ok (scanMatches det symbol timeframe
      (dfAgg.map toCandleFromAgg) (checkConsecutivePeriods dfAgg "1W")
      minMove)
  else if timeframe = "1M" then
    let dfAgg := aggregateToMonthly df 1
    if dfAgg.length < 2 then Except.ok []
    else Except.ok (scanMatches det symbol timeframe
      (dfAgg.map toCandleFromAgg) (checkConsecutivePeriods dfAgg "1M")
      minMove)
  else Except.error "Unknown timeframe"

/-- `ScannerEngine.scan_symbol`: the whole body runs inside
`try/except`, so an exception is logged and the accumulated (here: empty)
result list is returned. -/
def scanSymbol (det : PatternDetector) (symbol : String) (df : List DayRow)
    (timeframe : String) (minMove : ℚ) : List MatchRec :=
  match scanSymbolBody det symbol df timeframe minMove with
  | .ok r => r
  | .error _ => []

/-- `scan_symbol` as seen by its caller: it always returns normally. -/
def scanSymbolE (det : PatternDetector) (symbol : String)
    (df : List DayRow) (timeframe : String) (minMove : ℚ) :
    Except String (List MatchRec) :=
  Except.ok (scanSymbol det symbol df timeframe minMove)

theorem scanSymbolBody_1W (det : PatternDetector) (symbol : String)
    (df : List DayRow) (minMove : ℚ) :
    scanSymbolBody det symbol df "1W" minMove =
      if (aggregateToWeekly df 1).length < 2 then Except.ok []
      else Except.ok (scanMatches det symbol "1W"
        ((aggregateToWeekly df 1).map toCandleFromAgg)
        (checkConsecutivePeriods (aggregateToWeekly df 1) "1W") minMove) := by
  unfold scanSymbolBody
  rw [if_neg (by decide : ¬("1W" = "1D")), if_pos rfl]

theorem scanSymbolBody_1M (det : PatternDetector) (symbol : String)
    (df : List DayRow) (minMove : ℚ) :
    scanSymbolBody det symbol df "1M" minMove =
      if (aggregateToMonthly df 1).length < 2 then Except.ok []
      else Except.ok (scanMatches det symbol "1M"
        ((aggregateToMonthly df 1).map toCandleFromAgg)
        (checkConsecutivePeriods (aggregateToMonthly df 1) "1M") minMove) := by
  unfold scanSymbolBody
  rw [if_neg (by decide : ¬("1M" = "1D")), if_neg (by decide : ¬("1M" = "1W")),
    if_pos rfl]

/-! ## Claim C9: `scan_symbol` skips thin symbols and never raises -/

/-- C9: for every input, `scan_symbol` returns a (possibly empty) list and
never propagates an exception; fewer than 2 bars after aggregation (or, for
the daily path, fewer than 2 input rows) yields the empty result; and
whenever the body raises, the caught result is the empty list. -/
theorem claim9_scan_symbol_total (det : PatternDetector) (symbol : String)
    (df : List DayRow) (timeframe : String) (minMove : ℚ) :
    scanSymbolE det symbol df timeframe minMove =
      Except.ok (scanSymbol det symbol df timeframe minMove) ∧
    (timeframe = "1W" → (aggregateToWeekly df 1).length < 2 →
      scanSymbol det symbol df timeframe minMove = []) ∧
    (timeframe = "1M" → (aggregateToMonthly df 1).length < 2 →
      scanSymbol det symbol df timeframe minMove = []) ∧
    (timeframe = "1D" → df.length < 2 →
      scanSymbol det symbol df timeframe minMove = []) ∧
    (∀ e, scanSymbolBody det symbol df timeframe minMove = Except.error e →
      scanSymbol det symbol df timeframe minMove = []) := by
  refine ⟨rfl, ?_, ?_, ?_, ?_⟩
  · rintro rfl h2
    unfold scanSymbol
    rw [scanSymbolBody_1W, if_pos h2]
  · rintro rfl h2
    unfold scanSymbol
    rw [scanSymbolBody_1M, if_pos h2]
  · rintro rfl h2
    unfold scanSymbol
    unfold scanSymbolBody
    rw [if_pos rfl, if_pos h2]
  · intro e he
    unfold scanSymbol
    rw [he]

/-- Witness for C9: an empty daily input on the weekly timeframe is
skipped with the empty result, and an unknown timeframe is caught. -/
theorem claim9_witness :
    (("1W" : String) = "1W") ∧ (aggregateToWeekly [] 1).length < 2 ∧
    scanSymbol defaultDetector "X" [] "1W" 0 = [] ∧
    scanSymbol defaultDetector "X" [] "BAD" 0 = [] := by
  have h := claim9_scan_symbol_total defaultDetector "X" [] "1W" 0
  have h2 := claim9_scan_symbol_total defaultDetector "X" [] "BAD" 0
  exact ⟨rfl, by decide, h.2.1 rfl (by decide),
    h2.2.2.2.2 "Unknown timeframe" (by rfl)⟩

/-! ## Claim C10: scan statistics are consistent with the results -/

/-- The per-run counters of `ScannerEngine.scan`. -/
structure ScanAcc where
  scanned : ℕ
  withData : ℕ
  withPatterns : ℕ
  results : List MatchRec
  deriving Repr, DecidableEq

/-- One iteration of the `for symbol, df in all_data.items()` loop of
`scan`: count the symbol, skip it if its frame is empty, otherwise scan it
and record any matches. -/
def scanStep (det : PatternDetector) (timeframe : String) (minMove : ℚ)
    (acc : ScanAcc) (e : String × List DayRow) : ScanAcc :=
  if e.2.isEmpty then { acc with scanned := acc.scanned + 1 }
  else
    let rs := scanSymbol det e.1 e.2 timeframe minMove
    if rs.isEmpty then
      { acc with scanned := acc.scanned + 1, withData := acc.withData + 1 }
    else
      { scanned := acc.scanned + 1, withData := acc.withData + 1,
        withPatterns := acc.withPatterns + 1,
        results := acc.results ++ rs }

/-- `DhanClient.get_batch_historical_data` as seen by `scan`: a dictionary
keyed by symbol, containing — of the requested symbols that resolve through
the symbol mapping, each at most once — those whose fetch returned a
non-empty frame. -/
def getBatchHistoricalData (mapping : String → Option String)
    (fetch : String → List DayRow) (symbols : List String) :
    List (String × List DayRow) :=
  ((symbols.filter fun s => (mapping s).isSome).dedup).filterMap fun s =>
    if (fetch s).length > 0 then some (s, fetch s) else none

/-- The statistics record of the dictionary returned by `scan`. -/
structure ScanStats where
  totalSymbolsRequested : ℕ
  symbolsScanned : ℕ
  symbolsWithData : ℕ
  symbolsWithPatterns : ℕ
  totalPatternsFound : ℕ
  deriving Repr, DecidableEq

/-- The dictionary returned by `scan`. -/
structure ScanOutput where
  results : List MatchRec
  statistics : ScanStats
  deriving Repr, DecidableEq

/-- `ScannerEngine.scan`: batch-fetch, loop over the fetched frames, then
assemble results and statistics. -/
def scan (det : PatternDetector) (mapping : String → Option String)
    (fetch : String → List DayRow) (symbols : List String)
    (timeframe : String) (minMove : ℚ) : ScanOutput :=
  let allData := getBatchHistoricalData mapping fetch symbols
  let acc := allData.foldl (scanStep det timeframe minMove) ⟨0, 0, 0, []⟩
  { results := acc.results,
    statistics := {
      totalSymbolsRequested := symbols.length,
      symbolsScanned := acc.scanned,
      symbolsWithData := acc.withData,
      symbolsWithPatterns := acc.withPatterns,
      totalPatternsFound := acc.results.length } }

theorem scanStep_invariant (det : PatternDetector) (timeframe : String)
    (minMove : ℚ) (acc : ScanAcc) (e : String × List DayRow)
    (h : acc.withPatterns ≤ acc.withData ∧ acc.withData ≤ acc.scanned) :
    (scanStep det timeframe minMove acc e).withPatterns ≤
      (scanStep det timeframe minMove acc e).withData ∧
    (scanStep det timeframe minMove acc e).withData ≤
      (scanStep det timeframe minMove acc e).scanned ∧
    (scanStep det timeframe minMove acc e).scanned = acc.scanned + 1 := by
  obtain ⟨h1, h2⟩ := h
  unfold scanStep
  split_ifs with he
  · dsimp only
    omega
  · dsimp only
    split_ifs with hrs <;> dsimp only <;> omega

theorem scanFold_invariant (det : PatternDetector) (timeframe : String)
    (minMove : ℚ) (entries : List (String × List DayRow)) :
    ∀ acc : ScanAcc,
      acc.withPatterns ≤ acc.withData → acc.withData ≤ acc.scanned →
      (entries.foldl (scanStep det timeframe minMove) acc).withPatterns ≤
        (entries.foldl (scanStep det timeframe minMove) acc).withData ∧
      (entries.foldl (scanStep det timeframe minMove) acc).withData ≤
        (entries.foldl (scanStep det timeframe minMove) acc).scanned ∧
      (entries.foldl (scanStep det timeframe minMove) acc).scanned =
        acc.scanned + entries.length := by
  induction entries with
  | nil => intro acc h1 h2; exact ⟨h1, h2, rfl⟩
  | cons e t ih =>
      intro acc h1 h2
      rw [List.foldl_cons]
      obtain ⟨s1, s2, s3⟩ :=
        scanStep_invariant det timeframe minMove acc e ⟨h1, h2⟩
      obtain ⟨r1, r2, r3⟩ := ih (scanStep det timeframe minMove acc e) s1 s2
      refine ⟨r1, r2, ?_⟩
      rw [r3, s3, List.length_cons]
      omega

/-- C10: in every dictionary returned by `scan`, `total_patterns_found`
equals the length of the results list, and
`symbols_with_patterns ≤ symbols_with_data ≤ symbols_scanned ≤
total_symbols_requested`. -/
theorem claim10_stats_consistent (det : PatternDetector)
    (mapping : String → Option String) (fetch : String → List DayRow)
    (symbols : List String) (timeframe : String) (minMove : ℚ) :
    (scan det mapping fetch symbols timeframe minMove).statistics.totalPatternsFound =
      (scan det mapping fetch symbols timeframe minMove).results.length ∧
    (scan det mapping fetch symbols timeframe minMove).statistics.symbolsWithPatterns ≤
      (scan det mapping fetch symbols timeframe minMove).statistics.symbolsWithData ∧
    (scan det mapping fetch symbols timeframe minMove).statistics.symbolsWithData ≤
      (scan det mapping fetch symbols timeframe minMove).statistics.symbolsScanned ∧
    (scan det mapping fetch symbols timeframe minMove).statistics.symbolsScanned ≤
      (scan det mapping fetch symbols timeframe minMove).statistics.totalSymbolsRequested := by
  have hlen : (getBatchHistoricalData mapping fetch symbols).length ≤
      symbols.length := by
    unfold getBatchHistoricalData
    calc ((symbols.filter fun s => (mapping s).isSome).dedup.filterMap
          fun s => if (fetch s).length > 0 then some (s, fetch s)
            else none).length
        ≤ (symbols.filter fun s => (mapping s).isSome).dedup.length :=
          List.length_filterMap_le _ _
      _ ≤ (symbols.filter fun s => (mapping s).isSome).length :=
          (List.dedup_sublist _).length_le
      _ ≤ symbols.length := (List.filter_sublist _).length_le
  obtain ⟨r1, r2, r3⟩ := scanFold_invariant det timeframe minMove
    (getBatchHistoricalData mapping fetch symbols) ⟨0, 0, 0, []⟩
    (by simp) (by simp)
  refine ⟨rfl, r1, r2, ?_⟩
  show ((getBatchHistoricalData mapping fetch symbols).foldl
      (scanStep det timeframe minMove) ⟨0, 0, 0, []⟩).scanned ≤
    symbols.length
  rw [r3]
  simpa using hlen

end ScannerPlatform
